import Mathlib

/-!
# coredns-mysql: the query-resolution pipeline of `Mysql.ServeDNS`

A shallow embedding of `src/mysql.go`.  `ServeDNS` is embedded statement by
statement.  The helpers it calls but which are not part of the two source
files (`getDomainInfo`, `getRecords`, `getBaseZone`, `getZoneID`,
`MakeMessage`, the successor handler and the third-party `dns.NewRR`) are
fields of the `Mysql` structure, so every general theorem holds for all of
their behaviours.  Repository calls thread an explicit world state `σ`, so two
calls with the same arguments may answer differently.
-/

namespace CorednsMysql

/-! ## Constants used by `ServeDNS` -/

/-- Modelled from the spec: the constant `zero` compared with `len(...)`. -/
def zero : Nat := 0

/-- Modelled from the spec: the query type of alias records ("records of the CNAME type"). -/
def cnameQtype : String := "CNAME"

/-- Modelled from the spec: the zone separator (the spec's owner name `*.example.com`). -/
def zoneSeparator : String := "."

/-- Modelled from the spec: the wildcard host `"*"`. -/
def wildcard : String := "*"

/-- The value of `dns.RcodeSuccess`. -/
def RcodeSuccess : Int := 0

/-! ## Data model -/

deriving instance DecidableEq for Except

/-- The fields of the Go struct `record` that `ServeDNS` reads or sets. A degrade-cache key is
a `record` with only `fqdn` and `qType` set, every other field holding its zero value. -/
structure record where
  fqdn : String
  qType : String
  name : String
  zoneName : String
  ttl : Nat
  data : String
deriving DecidableEq, Repr

/-- The Go struct `dnsRecordInfo`: the synthesized record lines and the parsed answers. -/
structure dnsRecordInfo (RR : Type) where
  rrStrings : List String
  response : List RR
deriving DecidableEq, Repr

/-- What `ServeDNS` reads from the request: `state.Name()`, `state.Type()`, and the message id
standing for the rest of the message. -/
structure Request where
  qName : String
  qType : String
  msgId : Nat
deriving DecidableEq, Repr

/-- The degrade cache `m.degradeCache`, a Go map from `record` to `dnsRecordInfo`. -/
abbrev DegradeCache (RR : Type) := record → Option (dnsRecordInfo RR)

/-- The receiver `m` as `ServeDNS` uses it: the repository helpers, the record parser, the
message builder and the successor handler. `σ` is the state of the world the repository reads. -/
structure Mysql (σ RR Msg : Type) where
  getDomainInfo : σ → String → Except String (Int × String × String) × σ
  getRecords : σ → Int → String → String → String → Except String (List record) × σ
  getBaseZone : String → String
  getZoneID : σ → String → Option Int × σ
  NewRR : String → Option RR
  MakeMessage : Request → List RR → Msg
  Next : σ → Request → Int × Option String

/-- The places of `ServeDNS` that jump to `DegradeEntrypoint`. -/
inductive Stage where
  | zoneDecomposition
  | primaryLookup
  | cnameLookup
  | aliasResolution
  | aliasTargetLookup
  | wildcardZoneLookup
  | wildcardRecordLookup
deriving DecidableEq, Repr

/-- The effects and the result of one `ServeDNS` call. -/
structure Outcome (σ RR Msg : Type) where
  written : List Msg
  degradeCache : DegradeCache RR
  cacheWrites : List (record × dnsRecordInfo RR)
  nextCalls : List Request
  result : Int × Option String
  world : σ

/-! ## String helpers -/

/-- The line `fmt.Sprintf("%s %d IN %s %s", owner, ttl, qType, data)`. -/
def rrLine (owner : String) (ttl : Nat) (qType data : String) : String :=
  owner ++ " " ++ toString ttl ++ " IN " ++ qType ++ " " ++ data

/-- The count `strings.Count(s, zoneSeparator)` for the one-character separator. -/
def countSeparator (s : String) : Nat :=
  (s.data.filter (fun c => c == '.')).length

/-! ## The resolution stages -/

/-- One pass of an emit loop body: the line is appended to `rrStrings` whether or not it
parses, the answer only when `dns.NewRR` accepts the line. -/
def emit {RR : Type} (newRR : String → Option RR) (line : String)
    (acc : List String × List RR) : List String × List RR :=
  match newRR line with
  | none => (acc.1 ++ [line], acc.2)
  | some rr => (acc.1 ++ [line], acc.2 ++ [rr])

/-- An emit loop over records, the line of each given by `line`. -/
def emitAll {RR : Type} (newRR : String → Option RR) (line : record → String) :
    List record → List String × List RR → List String × List RR
  | [], acc => acc
  | x :: xs, acc => emitAll newRR line xs (emit newRR (line x) acc)

/-- The line of a record of an alias target (mysql.go line 85). -/
def cname2Line (x : record) : String :=
  rrLine (x.name ++ zoneSeparator ++ x.zoneName) x.ttl x.qType x.data

/-- The line of a directly matching record (mysql.go line 99). -/
def recordLine (x : record) : String :=
  rrLine x.name x.ttl x.qType x.data

/-- The line of a wildcard record (mysql.go line 125). -/
def wildcardLine (wildcardName : String) (x : record) : String :=
  rrLine wildcardName x.ttl x.qType x.data

/-- The loop over the alias records (mysql.go lines 58-94). -/
def cnameLoop {σ RR Msg : Type} (m : Mysql σ RR Msg) (qName qType : String) :
    List record → σ → List String × List RR → Except Stage (List String × List RR) × σ
  | [], s, acc => (.ok acc, s)
  | cnameRecord :: rest, s, acc =>
    match m.getDomainInfo s cnameRecord.data with
    | (.error _, s1) => (.error .aliasResolution, s1)
    | (.ok (cnameZoneID, cnameHost, cnameZone), s1) =>
      let rrString := rrLine qName cnameRecord.ttl cnameRecord.qType cnameRecord.data
      match m.NewRR rrString with
      | none => cnameLoop m qName qType rest s1 (acc.1 ++ [rrString], acc.2)
      | some rr =>
        match m.getRecords s1 cnameZoneID cnameHost cnameZone qType with
        | (.error _, s2) => (.error .aliasTargetLookup, s2)
        | (.ok cname2Records, s2) =>
          cnameLoop m qName qType rest s2
            (emitAll m.NewRR cname2Line cname2Records (acc.1 ++ [rrString], acc.2 ++ [rr]))

/-- The CNAME stage (mysql.go lines 51-95), entered only when the primary lookup is empty. -/
def cnameStage {σ RR Msg : Type} (m : Mysql σ RR Msg) (qName qType : String)
    (zoneID : Int) (host zone : String) (records : List record) (s : σ) :
    Except Stage (List String × List RR) × σ :=
  if records.length = zero then
    match m.getRecords s zoneID host zone cnameQtype with
    | (.error _, s1) => (.error .cnameLookup, s1)
    | (.ok cnameRecords, s1) => cnameLoop m qName qType cnameRecords s1 ([], [])
  else (.ok ([], []), s)

/-- The wildcard stage (mysql.go lines 110-134). -/
def wildcardStage {σ RR Msg : Type} (m : Mysql σ RR Msg) (qName qType zone : String)
    (s : σ) (acc : List String × List RR) : Except Stage (List String × List RR) × σ :=
  if acc.2.length = zero ∧ countSeparator qName > 1 then
    let baseZone := m.getBaseZone qName
    match m.getZoneID s baseZone with
    | (none, s1) => (.error .wildcardZoneLookup, s1)
    | (some domainID, s1) =>
      let wildcardName := wildcard ++ zoneSeparator ++ baseZone
      match m.getRecords s1 domainID wildcard zone qType with
      | (.error _, s2) => (.error .wildcardRecordLookup, s2)
      | (.ok records, s2) => (.ok (emitAll m.NewRR (wildcardLine wildcardName) records acc), s2)
  else (.ok acc, s)

/-- The live resolution (mysql.go lines 33-134): the record lines and the answers, or the
stage that jumped to `DegradeEntrypoint`. -/
def resolve {σ RR Msg : Type} (m : Mysql σ RR Msg) (s : σ) (qName qType : String) :
    Except Stage (List String × List RR) × σ :=
  match m.getDomainInfo s qName with
  | (.error _, s1) => (.error .zoneDecomposition, s1)
  | (.ok (zoneID, host, zone), s1) =>
    match m.getRecords s1 zoneID host zone qType with
    | (.error _, s2) => (.error .primaryLookup, s2)
    | (.ok records, s2) =>
      match cnameStage m qName qType zoneID host zone records s2 with
      | (.error e, s3) => (.error e, s3)
      | (.ok acc, s3) =>
        wildcardStage m qName qType zone s3 (emitAll m.NewRR recordLine records acc)

/-! ## The degrade cache and the entry point -/

/-- The key `record{fqdn: qName, qType: qType}` of the degrade cache. -/
def degradeKey (qName qType : String) : record :=
  { fqdn := qName, qType := qType, name := "", zoneName := "", ttl := 0, data := "" }

/-- Modelled from the spec: `degradeQuery`, which is not in the source files, is the cache
read `get(key) → (entry, found)` of section 4.2, returning the cached answers on a hit. -/
def degradeQuery {RR : Type} (cache : DegradeCache RR) (key : record) : Option (List RR) :=
  (cache key).map (fun e => e.response)

/-- The Go map assignment `m.degradeCache[key] = info`. -/
def cachePut {RR : Type} (cache : DegradeCache RR) (key : record) (info : dnsRecordInfo RR) :
    DegradeCache RR :=
  fun k => if k = key then some info else cache k

/-- The label `DegradeEntrypoint` (mysql.go lines 151-160), reached with the replies already
written in `written`. -/
def DegradeEntrypoint {σ RR Msg : Type} (m : Mysql σ RR Msg) (s : σ) (cache : DegradeCache RR)
    (r : Request) (written : List Msg) : Outcome σ RR Msg :=
  match degradeQuery cache (degradeKey r.qName r.qType) with
  | some answers =>
    { written := written ++ [m.MakeMessage r answers], degradeCache := cache, cacheWrites := [],
      nextCalls := [], result := (RcodeSuccess, none), world := s }
  | none =>
    { written := written, degradeCache := cache, cacheWrites := [],
      nextCalls := [r], result := m.Next s r, world := s }

/-- The method `Mysql.ServeDNS` (mysql.go lines 19-161). -/
def ServeDNS {σ RR Msg : Type} [DecidableEq RR] (m : Mysql σ RR Msg) (s : σ)
    (cache : DegradeCache RR) (r : Request) : Outcome σ RR Msg :=
  let qName := r.qName
  let qType := r.qType
  let degradeRecord := degradeKey qName qType
  match resolve m s qName qType with
  | (.error _, s1) => DegradeEntrypoint m s1 cache r []
  | (.ok (rrStrings, answers), s1) =>
    if answers.length > 0 then
      let msg := m.MakeMessage r answers
      let info : dnsRecordInfo RR := { rrStrings := rrStrings, response := answers }
      if cache degradeRecord ≠ some info then
        { written := [msg], degradeCache := cachePut cache degradeRecord info,
          cacheWrites := [(degradeRecord, info)], nextCalls := [],
          result := (RcodeSuccess, none), world := s1 }
      else DegradeEntrypoint m s1 cache r [msg]
    else DegradeEntrypoint m s1 cache r []

/-- A sequence of `ServeDNS` calls on one plugin instance, each with its own state of the
world and its own request; the cache of each call is the one the previous call left. -/
def serveAll {σ RR Msg : Type} [DecidableEq RR] (m : Mysql σ RR Msg) :
    DegradeCache RR → List (σ × Request) → DegradeCache RR
  | cache, [] => cache
  | cache, c :: rest => serveAll m (ServeDNS m c.1 cache c.2).degradeCache rest

/-- The number of assignments to the degrade cache made by a sequence of calls. -/
def countWrites {σ RR Msg : Type} [DecidableEq RR] (m : Mysql σ RR Msg) :
    DegradeCache RR → List (σ × Request) → Nat
  | _, [] => 0
  | cache, c :: rest =>
    (ServeDNS m c.1 cache c.2).cacheWrites.length
      + countWrites m (ServeDNS m c.1 cache c.2).degradeCache rest

/-- The empty degrade cache of a fresh plugin instance. -/
def emptyCache (RR : Type) : DegradeCache RR := fun _ => none

/-- A call is quiet for a key when it is no resolution for that key with a non-empty answer
set. -/
def Quiet {σ RR Msg : Type} (m : Mysql σ RR Msg) (k : record) (c : σ × Request) : Prop :=
  k = degradeKey c.2.qName c.2.qType →
    ∀ strs A s1, resolve m c.1 c.2.qName c.2.qType = (.ok (strs, A), s1) → A = []

/-- Every entry of the cache has a non-empty answer list and is the resolution of one of the
listed calls, made for the name and type of the entry's key. -/
def Justified {σ RR Msg : Type} (m : Mysql σ RR Msg) (calls : List (σ × Request))
    (cache : DegradeCache RR) :
    Prop :=
  ∀ k e, cache k = some e →
    e.response ≠ [] ∧ ∃ c ∈ calls, k = degradeKey c.2.qName c.2.qType ∧
      ∃ s1, resolve m c.1 c.2.qName c.2.qType = (.ok (e.rrStrings, e.response), s1)

/-! ## A table-backed repository

The repository helpers are not in the source files. For concrete runs they are modelled from
section 4.3 of the spec over an in-memory zone table and record table; every repository call
is appended to a trace kept in the world state. -/

/-- A row of the `records` table of section 6: zone id, hostname, type, data, ttl, online. -/
structure Row where
  zoneID : Int
  hostname : String
  qType : String
  data : String
  ttl : Nat
  online : Bool
deriving DecidableEq, Repr

/-- A repository call, as recorded in the trace. -/
inductive Call where
  | getDomainInfo (fqdn : String)
  | getRecords (zoneID : Int) (host zone qType : String)
  | getZoneID (zone : String)
deriving DecidableEq, Repr

/-- The state of the world of the table-backed repository: the zone table, the record table,
the number of record queries the store still answers before it becomes unreachable, and the
trace of repository calls made so far. -/
structure World where
  zones : List (Int × String)
  rows : List Row
  answersLeft : Nat
  trace : List Call
deriving DecidableEq, Repr

/-- The labels of a name, `strings.Split(s, ".")` on characters. -/
def splitLabels : List Char → List (List Char)
  | [] => [[]]
  | c :: cs =>
    if c = '.' then [] :: splitLabels cs
    else
      match splitLabels cs with
      | [] => [[c]]
      | l :: ls => (c :: l) :: ls

/-- The labels joined with the separator, `strings.Join(items, ".")` on characters. -/
def joinLabels : List (List Char) → List Char
  | [] => []
  | [l] => l
  | l :: ls => l ++ '.' :: joinLabels ls

/-- Modelled from the spec: `lookupZoneID(zoneName) → (id, found)`, which is not in the source
files, is the exact-match zone lookup of section 4.3. -/
def lookupZoneID : List (Int × String) → String → Option Int
  | [], _ => none
  | (id, z) :: rest, zoneName => if z = zoneName then some id else lookupZoneID rest zoneName

/-- The search of `resolveName` over the suffixes of the label list, longest first. -/
def longestZoneSuffix (zones : List (Int × String)) :
    List (List Char) → List (List Char) → Option (Int × String × String)
  | _, [] => none
  | pre, l :: post =>
    match lookupZoneID zones (String.mk (joinLabels (l :: post))) with
    | some id => some (id, String.mk (joinLabels pre), String.mk (joinLabels (l :: post)))
    | none => longestZoneSuffix zones (pre ++ [l]) post

/-- Modelled from the spec: `resolveName(fqdn) → (zoneID, host, zone) | error`, which is not in
the source files, finds the longest registered zone suffix of the name and the remaining
prefix, and errors when no zone matches any suffix (section 4.3). -/
def resolveName (zones : List (Int × String)) (fqdn : String) :
    Except String (Int × String × String) :=
  match longestZoneSuffix zones [] (splitLabels fqdn.data) with
  | some x => .ok x
  | none => .error ("domain " ++ fqdn ++ " not exist")

/-- Modelled from the spec: `baseZoneOf(fqdn) → zone`, which is not in the source files,
derives the parent-zone candidate by discarding the leftmost label (section 4.3). -/
def baseZoneOf (fqdn : String) : String :=
  String.mk ((fqdn.data.dropWhile (fun c => c != '.')).drop 1)

/-- Modelled from the spec: `getRecords(zoneID, host, zone, qType) → (records, error)`, which is
not in the source files, returns all enabled records matching the tuple, an empty list
meaning no match, and an error when the store is unreachable (section 4.3). The zone name
of a returned record is the zone passed in; `fqdn`, which `ServeDNS` never reads from a
fetched record, keeps its zero value. -/
def fetchRecords (w : World) (zoneID : Int) (host zone qType : String) :
    Except String (List record) :=
  if 0 < w.answersLeft then
    .ok ((w.rows.filter (fun x =>
        x.online && decide (x.zoneID = zoneID) && decide (x.hostname = host)
          && decide (x.qType = qType))).map
      (fun x => { fqdn := "", qType := x.qType, name := x.hostname,
                  zoneName := zone, ttl := x.ttl, data := x.data }))
  else .error "store unreachable"

/-- The world after a call that reads the zone table. -/
def World.log (w : World) (c : Call) : World :=
  { w with trace := w.trace ++ [c] }

/-- The world after a record query. -/
def World.logQuery (w : World) (c : Call) : World :=
  { w with trace := w.trace ++ [c], answersLeft := w.answersLeft - 1 }

/-- The world `w` after the repository calls `calls`, of which `queries` were record
queries. -/
def World.after (w : World) (calls : List Call) (queries : Nat) : World :=
  { w with trace := w.trace ++ calls, answersLeft := w.answersLeft - queries }

/-- A parsed resource record: owner name, TTL, type and data. -/
structure ResourceRecord where
  owner : String
  ttl : Nat
  rrType : String
  rdata : String
deriving DecidableEq, Repr

/-- The fields of a line, split at single blanks. -/
def splitFields : List Char → List (List Char)
  | [] => [[]]
  | c :: cs =>
    if c = ' ' then [] :: splitFields cs
    else
      match splitFields cs with
      | [] => [[c]]
      | l :: ls => (c :: l) :: ls

/-- The value of a string of decimal digits. -/
def decimalValue : List Char → Nat → Option Nat
  | [], acc => some acc
  | c :: cs, acc =>
    if c.isDigit then decimalValue cs (acc * 10 + (c.toNat - 48)) else none

/-- A dotted quad: four decimal fields, none above 255. -/
def isIPv4 (data : List Char) : Bool :=
  match splitLabels data with
  | [a, b, c, d] =>
    [a, b, c, d].all (fun x =>
      match x, decimalValue x 0 with
      | [], _ => false
      | _, some n => decide (n ≤ 255)
      | _, none => false)
  | _ => false

/-- A small stand-in for the third-party `dns.NewRR`, used in the concrete runs only. It
accepts a line of five blank-separated fields `owner ttl IN type data` with a numeric TTL and
keeps the fields as written; like the library it rejects an `A` line whose data is no IPv4
address. -/
def sampleNewRR (line : String) : Option ResourceRecord :=
  match splitFields line.data with
  | [owner, ttl, cls, ty, data] =>
    match decimalValue ttl 0 with
    | some n =>
      if owner = [] ∨ ttl = [] ∨ cls ≠ "IN".data ∨ ty = [] ∨ data = [] then none
      else if ty = "A".data ∧ isIPv4 data = false then none
      else some { owner := String.mk owner, ttl := n, rrType := String.mk ty,
                  rdata := String.mk data }
    | none => none
  | _ => none

/-- Modelled from the spec: the reply of `buildReply(originalRequest, answers)` (section 4.4),
which echoes the original request and carries the given answer records; `MakeMessage` is not
in the source files. -/
structure Reply where
  request : Request
  answers : List ResourceRecord
deriving DecidableEq, Repr

/-- The value of `dns.RcodeServerFailure`. -/
def RcodeServerFailure : Int := 2

/-- The plugin over the table-backed repository, with no successor configured: then
`plugin.NextOrFailure` returns a server failure and an error. -/
def tableMysql : Mysql World ResourceRecord Reply where
  getDomainInfo := fun w fqdn => (resolveName w.zones fqdn, w.log (.getDomainInfo fqdn))
  getRecords := fun w zoneID host zone qType =>
    (fetchRecords w zoneID host zone qType, w.logQuery (.getRecords zoneID host zone qType))
  getBaseZone := baseZoneOf
  getZoneID := fun w zone => (lookupZoneID w.zones zone, w.log (.getZoneID zone))
  NewRR := sampleNewRR
  MakeMessage := fun r answers => { request := r, answers := answers }
  Next := fun _ _ => (RcodeServerFailure, some "plugin/mysql: no next plugin found")

/-! ## Sample worlds and requests -/

/-- A store with zone `example.com` holding one enabled `A` record for host `www`. -/
def directWorld : World :=
  { zones := [(1, "example.com")],
    rows := [⟨1, "www", "A", "1.2.3.4", 120, true⟩],
    answersLeft := 100, trace := [] }

/-- The store of `directWorld` when it cannot be reached. -/
def downWorld : World := { directWorld with answersLeft := 0 }

/-- The query `www.example.com A`. -/
def wwwRequest : Request := { qName := "www.example.com", qType := "A", msgId := 7 }

/-- The answer parsed from the record of `directWorld`. -/
def wwwAnswer : ResourceRecord := { owner := "www", ttl := 120, rrType := "A", rdata := "1.2.3.4" }

/-- A store with zones `com` and `net`: `example.com` is an alias of `alias.net`, which has
the address `1.2.3.4`. -/
def aliasWorld : World :=
  { zones := [(1, "com"), (2, "net")],
    rows := [⟨1, "example", "CNAME", "alias.net", 300, true⟩,
             ⟨2, "alias", "A", "1.2.3.4", 60, true⟩],
    answersLeft := 100, trace := [] }

/-- The store of `aliasWorld` with a second alias of `example.com` whose target `alias.org`
lies in no registered zone. -/
def brokenAliasWorld : World :=
  { zones := [(1, "com"), (2, "net")],
    rows := [⟨1, "example", "CNAME", "alias.net", 300, true⟩,
             ⟨1, "example", "CNAME", "alias.org", 300, true⟩,
             ⟨2, "alias", "A", "1.2.3.4", 60, true⟩],
    answersLeft := 100, trace := [] }

/-- The query `example.com A`. -/
def exampleRequest : Request := { qName := "example.com", qType := "A", msgId := 11 }

/-- A cache holding an earlier answer for `example.com A`. -/
def exampleCache : DegradeCache ResourceRecord :=
  cachePut (emptyCache ResourceRecord) (degradeKey "example.com" "A")
    { rrStrings := ["example.com 60 IN A 9.9.9.9"],
      response := [{ owner := "example.com", ttl := 60, rrType := "A", rdata := "9.9.9.9" }] }

/-- A store with zone `example.com` holding two enabled `A` records for host `www`, the
first with data that is no address. -/
def mixedWorld : World :=
  { zones := [(1, "example.com")],
    rows := [⟨1, "www", "A", "not-an-ip", 120, true⟩, ⟨1, "www", "A", "1.2.3.4", 120, true⟩],
    answersLeft := 100, trace := [] }

/-- A store with zone `example.com` holding one enabled wildcard `A` record. -/
def wildcardWorld : World :=
  { zones := [(1, "example.com")],
    rows := [⟨1, "*", "A", "1.2.3.4", 120, true⟩],
    answersLeft := 100, trace := [] }

/-- The store of `wildcardWorld` with the zone `x.example.com` registered as well. -/
def nestedWorld : World :=
  { zones := [(1, "example.com"), (2, "x.example.com")],
    rows := [⟨1, "*", "A", "1.2.3.4", 120, true⟩],
    answersLeft := 100, trace := [] }

/-- The query `a.b.example.com A`. -/
def deepRequest : Request := { qName := "a.b.example.com", qType := "A", msgId := 3 }

/-- The query `a.example.com A`. -/
def shallowRequest : Request := { qName := "a.example.com", qType := "A", msgId := 4 }

/-- The query `x.example.com A`. -/
def nestedRequest : Request := { qName := "x.example.com", qType := "A", msgId := 5 }

/-- The answer parsed from the wildcard record of `wildcardWorld`. -/
def wildcardAnswer : ResourceRecord :=
  { owner := "*.example.com", ttl := 120, rrType := "A", rdata := "1.2.3.4" }

/-! ## Basic facts about the emit loops and the cache -/

theorem emit_fst {RR : Type} (newRR : String → Option RR) (line : String)
    (acc : List String × List RR) : (emit newRR line acc).1 = acc.1 ++ [line] := by
  unfold emit
  cases newRR line <;> rfl

theorem emit_snd {RR : Type} (newRR : String → Option RR) (line : String)
    (acc : List String × List RR) :
    (emit newRR line acc).2 = acc.2 ++ (newRR line).toList := by
  unfold emit
  cases newRR line <;> simp

theorem emitAll_fst {RR : Type} (newRR : String → Option RR) (line : record → String)
    (xs : List record) (acc : List String × List RR) :
    (emitAll newRR line xs acc).1 = acc.1 ++ xs.map line := by
  induction xs generalizing acc with
  | nil => simp [emitAll]
  | cons x xs ih => simp [emitAll, ih, emit_fst]

theorem emitAll_snd {RR : Type} (newRR : String → Option RR) (line : record → String)
    (xs : List record) (acc : List String × List RR) :
    (emitAll newRR line xs acc).2 = acc.2 ++ xs.filterMap (fun x => newRR (line x)) := by
  induction xs generalizing acc with
  | nil => simp [emitAll]
  | cons x xs ih =>
    simp only [emitAll, ih, emit_snd, List.filterMap_cons]
    cases newRR (line x) <;> simp

theorem emitAll_eq {RR : Type} (newRR : String → Option RR) (line : record → String)
    (xs : List record) (acc : List String × List RR) :
    emitAll newRR line xs acc
      = (acc.1 ++ xs.map line, acc.2 ++ xs.filterMap (fun x => newRR (line x))) :=
  Prod.ext (emitAll_fst newRR line xs acc) (emitAll_snd newRR line xs acc)

/-- When every element has an image, `filterMap` keeps every element, in order. -/
theorem map_some_filterMap {α β : Type} (f : α → Option β) (xs : List α)
    (h : ∀ x ∈ xs, (f x).isSome = true) : (xs.filterMap f).map some = xs.map f := by
  induction xs with
  | nil => rfl
  | cons x xs ih =>
    have hx := h x (List.mem_cons_self x xs)
    have hxs := ih (fun y hy => h y (List.mem_cons_of_mem x hy))
    obtain ⟨b, hb⟩ := Option.isSome_iff_exists.mp hx
    simp [List.filterMap_cons, hb, hxs]

theorem degradeKey_inj {a b c d : String} (h : degradeKey a b = degradeKey c d) :
    a = c ∧ b = d := by
  simp only [degradeKey, record.mk.injEq] at h
  exact ⟨h.1, h.2.1⟩

theorem cachePut_same {RR : Type} (cache : DegradeCache RR) (key : record)
    (info : dnsRecordInfo RR) : cachePut cache key info key = some info := by
  simp [cachePut]

theorem cachePut_other {RR : Type} (cache : DegradeCache RR) (key k : record)
    (info : dnsRecordInfo RR) (h : k ≠ key) : cachePut cache key info k = cache k := by
  simp [cachePut, h]

/-! ## The four ways a `ServeDNS` call ends -/

theorem DegradeEntrypoint_hit {σ RR Msg : Type} (m : Mysql σ RR Msg) (s : σ) (cache : DegradeCache RR)
    (r : Request) (written : List Msg) (e : dnsRecordInfo RR)
    (h : cache (degradeKey r.qName r.qType) = some e) :
    DegradeEntrypoint m s cache r written =
      { written := written ++ [m.MakeMessage r e.response], degradeCache := cache,
        cacheWrites := [], nextCalls := [], result := (RcodeSuccess, none), world := s } := by
  simp [DegradeEntrypoint, degradeQuery, h]

theorem DegradeEntrypoint_miss {σ RR Msg : Type} (m : Mysql σ RR Msg) (s : σ) (cache : DegradeCache RR)
    (r : Request) (written : List Msg) (h : cache (degradeKey r.qName r.qType) = none) :
    DegradeEntrypoint m s cache r written =
      { written := written, degradeCache := cache, cacheWrites := [], nextCalls := [r],
        result := m.Next s r, world := s } := by
  simp [DegradeEntrypoint, degradeQuery, h]

theorem DegradeEntrypoint_cache {σ RR Msg : Type} (m : Mysql σ RR Msg) (s : σ) (cache : DegradeCache RR)
    (r : Request) (written : List Msg) :
    (DegradeEntrypoint m s cache r written).degradeCache = cache
      ∧ (DegradeEntrypoint m s cache r written).cacheWrites = [] := by
  unfold DegradeEntrypoint
  cases degradeQuery cache (degradeKey r.qName r.qType) <;> simp

section Ends

variable {σ RR Msg : Type} [DecidableEq RR]

theorem ServeDNS_error (m : Mysql σ RR Msg) (s s1 : σ) (cache : DegradeCache RR) (r : Request)
    (stage : Stage) (h : resolve m s r.qName r.qType = (.error stage, s1)) :
    ServeDNS m s cache r = DegradeEntrypoint m s1 cache r [] := by
  simp [ServeDNS, h]

theorem ServeDNS_empty (m : Mysql σ RR Msg) (s s1 : σ) (cache : DegradeCache RR) (r : Request)
    (strs : List String) (h : resolve m s r.qName r.qType = (.ok (strs, []), s1)) :
    ServeDNS m s cache r = DegradeEntrypoint m s1 cache r [] := by
  simp [ServeDNS, h]

theorem ServeDNS_fresh (m : Mysql σ RR Msg) (s s1 : σ) (cache : DegradeCache RR) (r : Request)
    (strs : List String) (A : List RR)
    (h : resolve m s r.qName r.qType = (.ok (strs, A), s1)) (hA : A ≠ [])
    (hc : cache (degradeKey r.qName r.qType) ≠ some { rrStrings := strs, response := A }) :
    ServeDNS m s cache r =
      { written := [m.MakeMessage r A],
        degradeCache := cachePut cache (degradeKey r.qName r.qType)
          { rrStrings := strs, response := A },
        cacheWrites := [(degradeKey r.qName r.qType, { rrStrings := strs, response := A })],
        nextCalls := [], result := (RcodeSuccess, none), world := s1 } := by
  have hlen : 0 < A.length := List.length_pos.mpr hA
  simp [ServeDNS, h, hlen, hc]

theorem ServeDNS_equal (m : Mysql σ RR Msg) (s s1 : σ) (cache : DegradeCache RR) (r : Request)
    (strs : List String) (A : List RR)
    (h : resolve m s r.qName r.qType = (.ok (strs, A), s1)) (hA : A ≠ [])
    (hc : cache (degradeKey r.qName r.qType) = some { rrStrings := strs, response := A }) :
    ServeDNS m s cache r = DegradeEntrypoint m s1 cache r [m.MakeMessage r A] := by
  have hlen : 0 < A.length := List.length_pos.mpr hA
  simp [ServeDNS, h, hlen, hc]

/-- When the cache already holds an entry equal to the fresh one, the call writes the fresh
reply and then, from `DegradeEntrypoint`, the cached answer again. -/
theorem ServeDNS_equal_written (m : Mysql σ RR Msg) (s s1 : σ) (cache : DegradeCache RR)
    (r : Request) (strs : List String) (A : List RR)
    (h : resolve m s r.qName r.qType = (.ok (strs, A), s1)) (hA : A ≠ [])
    (hc : cache (degradeKey r.qName r.qType) = some { rrStrings := strs, response := A }) :
    (ServeDNS m s cache r).written = [m.MakeMessage r A, m.MakeMessage r A] := by
  rw [ServeDNS_equal m s s1 cache r strs A h hA hc, DegradeEntrypoint_hit m s1 cache r _ _ hc]
  rfl

/-- After a resolution with a non-empty answer set the cache slot of the key holds the
fresh entry, whatever it held before. -/
theorem ServeDNS_slot_after (m : Mysql σ RR Msg) (s s1 : σ) (cache : DegradeCache RR)
    (r : Request) (strs : List String) (A : List RR)
    (h : resolve m s r.qName r.qType = (.ok (strs, A), s1)) (hA : A ≠ []) :
    (ServeDNS m s cache r).degradeCache (degradeKey r.qName r.qType)
      = some { rrStrings := strs, response := A } := by
  by_cases hc : cache (degradeKey r.qName r.qType) = some { rrStrings := strs, response := A }
  · rw [ServeDNS_equal m s s1 cache r strs A h hA hc, (DegradeEntrypoint_cache _ _ _ _ _).1, hc]
  · rw [ServeDNS_fresh m s s1 cache r strs A h hA hc]
    exact cachePut_same _ _ _

/-- A call changes the cache slot of a key only by a resolution for that key with a
non-empty answer set, and then the slot holds that resolution. -/
theorem ServeDNS_slot (m : Mysql σ RR Msg) (s : σ) (cache : DegradeCache RR) (r : Request)
    (k : record) :
    (ServeDNS m s cache r).degradeCache k = cache k ∨
      (k = degradeKey r.qName r.qType ∧ ∃ strs A s1,
        resolve m s r.qName r.qType = (.ok (strs, A), s1) ∧ A ≠ [] ∧
        (ServeDNS m s cache r).degradeCache k = some { rrStrings := strs, response := A }) := by
  rcases hres : resolve m s r.qName r.qType with ⟨res, s1⟩
  cases res with
  | error stage =>
    left
    rw [ServeDNS_error m s s1 cache r stage hres, (DegradeEntrypoint_cache _ _ _ _ _).1]
  | ok acc =>
    obtain ⟨strs, A⟩ := acc
    by_cases hA : A = []
    · subst hA
      left
      rw [ServeDNS_empty m s s1 cache r strs hres, (DegradeEntrypoint_cache _ _ _ _ _).1]
    · by_cases hk : k = degradeKey r.qName r.qType
      · right
        subst hk
        exact ⟨rfl, strs, A, s1, rfl, hA, ServeDNS_slot_after m s s1 cache r strs A hres hA⟩
      · left
        by_cases hc : cache (degradeKey r.qName r.qType)
            = some { rrStrings := strs, response := A }
        · rw [ServeDNS_equal m s s1 cache r strs A hres hA hc,
            (DegradeEntrypoint_cache _ _ _ _ _).1]
        · rw [ServeDNS_fresh m s s1 cache r strs A hres hA hc]
          exact cachePut_other _ _ _ _ hk

end Ends

/-! ## Sequences of calls -/

section Sequences

variable {σ RR Msg : Type} [DecidableEq RR]

theorem ServeDNS_quiet (m : Mysql σ RR Msg) (k : record) (c : σ × Request)
    (cache : DegradeCache RR) (h : Quiet m k c) :
    (ServeDNS m c.1 cache c.2).degradeCache k = cache k := by
  rcases ServeDNS_slot m c.1 cache c.2 k with h1 | ⟨hk, strs, A, s1, hres, hA, _⟩
  · exact h1
  · exact absurd (h hk strs A s1 hres) hA

theorem serveAll_quiet (m : Mysql σ RR Msg) (k : record) (calls : List (σ × Request))
    (cache : DegradeCache RR) (h : ∀ c ∈ calls, Quiet m k c) :
    serveAll m cache calls k = cache k := by
  induction calls generalizing cache with
  | nil => rfl
  | cons c rest ih =>
    simp only [serveAll]
    rw [ih _ (fun d hd => h d (List.mem_cons_of_mem c hd))]
    exact ServeDNS_quiet m k c cache (h c (List.mem_cons_self c rest))

theorem serveAll_append (m : Mysql σ RR Msg) (xs ys : List (σ × Request))
    (cache : DegradeCache RR) :
    serveAll m cache (xs ++ ys) = serveAll m (serveAll m cache xs) ys := by
  induction xs generalizing cache with
  | nil => rfl
  | cons c rest ih => simp [serveAll, ih]

theorem Justified_step (m : Mysql σ RR Msg) (done : List (σ × Request)) (c : σ × Request)
    (cache : DegradeCache RR) (h : Justified m done cache) :
    Justified m (done ++ [c]) (ServeDNS m c.1 cache c.2).degradeCache := by
  intro k e hk
  rcases ServeDNS_slot m c.1 cache c.2 k with h1 | ⟨hkey, strs, A, s1, hres, hA, hslot⟩
  · rw [h1] at hk
    obtain ⟨hne, d, hd, hdk, hds⟩ := h k e hk
    exact ⟨hne, d, List.mem_append_left _ hd, hdk, hds⟩
  · rw [hslot] at hk
    have he : e = { rrStrings := strs, response := A } := (Option.some.inj hk).symm
    subst he
    exact ⟨hA, c, by simp, hkey, s1, hres⟩

theorem Justified_serveAll (m : Mysql σ RR Msg) (rest done : List (σ × Request))
    (cache : DegradeCache RR) (h : Justified m done cache) :
    Justified m (done ++ rest) (serveAll m cache rest) := by
  induction rest generalizing done cache with
  | nil => simpa [serveAll] using h
  | cons c rest ih =>
    have h1 := ih (done ++ [c]) _ (Justified_step m done c cache h)
    simpa [serveAll] using h1

end Sequences

/-! ## Claims about the end of a call -/

section EndClaims

variable {σ RR Msg : Type} [DecidableEq RR]

/-- C4 (pass-through). When a repository call of ServeDNS fails, at whatever stage, and the
degrade cache has no entry for the key, ServeDNS writes no reply, leaves the cache unchanged,
invokes the successor exactly once and returns the successor's pair. In every call the
result is either success without error or the pair of the one successor invocation, so no
repository error is returned by ServeDNS itself. -/
theorem ServeDNS_pass_through (m : Mysql σ RR Msg) (s s1 : σ) (cache : DegradeCache RR)
    (r : Request) (stage : Stage)
    (hfail : resolve m s r.qName r.qType = (.error stage, s1))
    (hmiss : cache (degradeKey r.qName r.qType) = none) :
    ((ServeDNS m s cache r).written = []
      ∧ (ServeDNS m s cache r).degradeCache = cache
      ∧ (ServeDNS m s cache r).cacheWrites = []
      ∧ (ServeDNS m s cache r).nextCalls = [r]
      ∧ (ServeDNS m s cache r).result = m.Next s1 r)
    ∧ ∀ (t : σ) (c : DegradeCache RR) (q : Request),
        ((ServeDNS m t c q).result = (RcodeSuccess, none) ∧ (ServeDNS m t c q).nextCalls = [])
        ∨ ((ServeDNS m t c q).result = m.Next (ServeDNS m t c q).world q
            ∧ (ServeDNS m t c q).nextCalls = [q]) := by
  constructor
  · rw [ServeDNS_error m s s1 cache r stage hfail, DegradeEntrypoint_miss m s1 cache r [] hmiss]
    simp
  · intro t c q
    have hD : ∀ (t1 : σ) (written : List Msg),
        ((DegradeEntrypoint m t1 c q written).result = (RcodeSuccess, none)
          ∧ (DegradeEntrypoint m t1 c q written).nextCalls = [])
        ∨ ((DegradeEntrypoint m t1 c q written).result
              = m.Next (DegradeEntrypoint m t1 c q written).world q
            ∧ (DegradeEntrypoint m t1 c q written).nextCalls = [q]) := by
      intro t1 written
      cases hq : c (degradeKey q.qName q.qType) with
      | none => right; rw [DegradeEntrypoint_miss m t1 c q written hq]; simp
      | some e => left; rw [DegradeEntrypoint_hit m t1 c q written e hq]; simp
    rcases hres : resolve m t q.qName q.qType with ⟨res, t1⟩
    cases res with
    | error st => rw [ServeDNS_error m t t1 c q st hres]; exact hD t1 []
    | ok acc =>
      obtain ⟨strs, A⟩ := acc
      by_cases hA : A = []
      · subst hA
        rw [ServeDNS_empty m t t1 c q strs hres]; exact hD t1 []
      · by_cases hc : c (degradeKey q.qName q.qType) = some { rrStrings := strs, response := A }
        · rw [ServeDNS_equal m t t1 c q strs A hres hA hc]; exact hD t1 _
        · left
          rw [ServeDNS_fresh m t t1 c q strs A hres hA hc]; simp

/-- C4 at a concrete input: the store is unreachable and the cache is empty. -/
theorem ServeDNS_pass_through_witness :
    (ServeDNS tableMysql downWorld (emptyCache ResourceRecord) wwwRequest).written = []
      ∧ (ServeDNS tableMysql downWorld (emptyCache ResourceRecord) wwwRequest).nextCalls
          = [wwwRequest]
      ∧ (ServeDNS tableMysql downWorld (emptyCache ResourceRecord) wwwRequest).result
          = (RcodeServerFailure, some "plugin/mysql: no next plugin found") := by
  have h := (ServeDNS_pass_through tableMysql downWorld
    (resolve tableMysql downWorld "www.example.com" "A").2 (emptyCache ResourceRecord)
    wwwRequest Stage.primaryLookup (by decide) rfl).1
  exact ⟨h.1, h.2.2.2.1, h.2.2.2.2⟩

/-- C1 (code defect). At the second of two identical queries with a direct match the cache
already holds an entry equal to the fresh one; ServeDNS then writes the fresh reply, falls
through to DegradeEntrypoint and writes the cached answer as a second reply. -/
theorem ServeDNS_equal_entry_writes_twice :
    (ServeDNS tableMysql directWorld (emptyCache ResourceRecord) wwwRequest).written
        = [{ request := wwwRequest, answers := [wwwAnswer] }]
      ∧ (ServeDNS tableMysql directWorld
          (ServeDNS tableMysql directWorld (emptyCache ResourceRecord) wwwRequest).degradeCache
          wwwRequest).written
        = [{ request := wwwRequest, answers := [wwwAnswer] },
           { request := wwwRequest, answers := [wwwAnswer] }]
      ∧ (ServeDNS tableMysql directWorld
          (ServeDNS tableMysql directWorld (emptyCache ResourceRecord) wwwRequest).degradeCache
          wwwRequest).result = (RcodeSuccess, none) := by
  decide

end EndClaims

section CacheClaims

variable {σ RR Msg : Type} [DecidableEq RR]

/-- C3 (write idempotence). When two consecutive ServeDNS calls for one key both resolve to
the same record strings and the same non-empty answers, the second call assigns nothing to
the degrade cache: the cache after it is the cache after the first, and the two calls
together make at most one write, exactly one when the cache did not hold that entry before.
Conversely a resolution with a non-empty answer set whose entry differs from the cached one,
or finds none, makes exactly one write, for its key, and leaves every other key's entry as
it was. -/
theorem ServeDNS_write_idempotence (m : Mysql σ RR Msg) (s1 t1 s2 t2 : σ)
    (cache : DegradeCache RR) (r1 r2 : Request) (strs : List String) (A : List RR)
    (hname : r2.qName = r1.qName) (htype : r2.qType = r1.qType)
    (h1 : resolve m s1 r1.qName r1.qType = (.ok (strs, A), t1))
    (h2 : resolve m s2 r2.qName r2.qType = (.ok (strs, A), t2))
    (hA : A ≠ []) :
    ((ServeDNS m s2 (ServeDNS m s1 cache r1).degradeCache r2).cacheWrites = []
      ∧ (ServeDNS m s2 (ServeDNS m s1 cache r1).degradeCache r2).degradeCache
          = (ServeDNS m s1 cache r1).degradeCache
      ∧ countWrites m cache [(s1, r1), (s2, r2)] ≤ 1
      ∧ (cache (degradeKey r1.qName r1.qType) ≠ some { rrStrings := strs, response := A } →
          countWrites m cache [(s1, r1), (s2, r2)] = 1))
    ∧ ∀ c : DegradeCache RR,
        c (degradeKey r1.qName r1.qType) ≠ some { rrStrings := strs, response := A } →
        (ServeDNS m s1 c r1).cacheWrites
            = [(degradeKey r1.qName r1.qType, { rrStrings := strs, response := A })]
          ∧ (ServeDNS m s1 c r1).degradeCache (degradeKey r1.qName r1.qType)
              = some { rrStrings := strs, response := A }
          ∧ ∀ k, k ≠ degradeKey r1.qName r1.qType → (ServeDNS m s1 c r1).degradeCache k = c k := by
  have hslot := ServeDNS_slot_after m s1 t1 cache r1 strs A h1 hA
  have hslot2 : (ServeDNS m s1 cache r1).degradeCache (degradeKey r2.qName r2.qType)
      = some { rrStrings := strs, response := A } := by rw [hname, htype]; exact hslot
  have hsecond := ServeDNS_equal m s2 t2 (ServeDNS m s1 cache r1).degradeCache r2 strs A h2 hA
    hslot2
  have hw2 : (ServeDNS m s2 (ServeDNS m s1 cache r1).degradeCache r2).cacheWrites = [] := by
    rw [hsecond]; exact (DegradeEntrypoint_cache _ _ _ _ _).2
  refine ⟨⟨hw2, ?_, ?_, ?_⟩, ?_⟩
  · rw [hsecond]; exact (DegradeEntrypoint_cache _ _ _ _ _).1
  · simp only [countWrites, hw2, List.length_nil, Nat.add_zero]
    by_cases hc : cache (degradeKey r1.qName r1.qType) = some { rrStrings := strs, response := A }
    · rw [ServeDNS_equal m s1 t1 cache r1 strs A h1 hA hc, (DegradeEntrypoint_cache _ _ _ _ _).2]
      simp
    · rw [ServeDNS_fresh m s1 t1 cache r1 strs A h1 hA hc]
      simp
  · intro hc
    simp only [countWrites, hw2, List.length_nil, Nat.add_zero]
    rw [ServeDNS_fresh m s1 t1 cache r1 strs A h1 hA hc]
    simp
  · intro c hc
    rw [ServeDNS_fresh m s1 t1 c r1 strs A h1 hA hc]
    exact ⟨rfl, cachePut_same _ _ _, fun k hk => cachePut_other _ _ _ _ hk⟩

/-- C3 at a concrete input: the query `www.example.com A` served twice from an empty cache. -/
theorem ServeDNS_write_idempotence_witness :
    (ServeDNS tableMysql directWorld
        (ServeDNS tableMysql directWorld (emptyCache ResourceRecord) wwwRequest).degradeCache
        wwwRequest).cacheWrites = []
      ∧ countWrites tableMysql (emptyCache ResourceRecord)
          [(directWorld, wwwRequest), (directWorld, wwwRequest)] = 1 := by
  have h := (ServeDNS_write_idempotence tableMysql directWorld
    (resolve tableMysql directWorld "www.example.com" "A").2 directWorld
    (resolve tableMysql directWorld "www.example.com" "A").2 (emptyCache ResourceRecord)
    wwwRequest wwwRequest ["www 120 IN A 1.2.3.4"] [wwwAnswer] rfl rfl (by decide) (by decide)
    (by decide)).1
  exact ⟨h.1, h.2.2.2 (by simp [emptyCache])⟩

/-- C2 (cache round trip). After a call on an empty cache slot resolved to a non-empty answer
set A, and any calls in between that are no successful resolution for that key, a call for
the same key whose resolution fails at any stage writes one reply carrying exactly A,
returns success and does not invoke the successor. -/
theorem ServeDNS_cache_round_trip (m : Mysql σ RR Msg) (s0 t0 s2 t2 : σ)
    (cache : DegradeCache RR) (r r2 : Request) (strs : List String) (A : List RR)
    (mid : List (σ × Request)) (stage : Stage)
    (hslot : cache (degradeKey r.qName r.qType) = none)
    (hres : resolve m s0 r.qName r.qType = (.ok (strs, A), t0)) (hA : A ≠ [])
    (hmid : ∀ c ∈ mid, c.2.qName = r.qName → c.2.qType = r.qType →
      ∀ strs1 A1 t1, resolve m c.1 c.2.qName c.2.qType = (.ok (strs1, A1), t1) → A1 = [])
    (hname : r2.qName = r.qName) (htype : r2.qType = r.qType)
    (hfail : resolve m s2 r2.qName r2.qType = (.error stage, t2)) :
    (ServeDNS m s0 cache r).written = [m.MakeMessage r A]
      ∧ (ServeDNS m s2 (serveAll m (ServeDNS m s0 cache r).degradeCache mid) r2).written
          = [m.MakeMessage r2 A]
      ∧ (ServeDNS m s2 (serveAll m (ServeDNS m s0 cache r).degradeCache mid) r2).result
          = (RcodeSuccess, none)
      ∧ (ServeDNS m s2 (serveAll m (ServeDNS m s0 cache r).degradeCache mid) r2).nextCalls
          = [] := by
  have hne : cache (degradeKey r.qName r.qType) ≠ some { rrStrings := strs, response := A } := by
    rw [hslot]; simp
  have hq : ∀ c ∈ mid, Quiet m (degradeKey r.qName r.qType) c := by
    intro c hc hk strs1 A1 t1 hr
    obtain ⟨hn, ht⟩ := degradeKey_inj hk
    exact hmid c hc hn.symm ht.symm strs1 A1 t1 hr
  have hlate : serveAll m (ServeDNS m s0 cache r).degradeCache mid (degradeKey r2.qName r2.qType)
      = some { rrStrings := strs, response := A } := by
    rw [hname, htype, serveAll_quiet m _ mid _ hq]
    exact ServeDNS_slot_after m s0 t0 cache r strs A hres hA
  refine ⟨?_, ?_, ?_, ?_⟩
  · rw [ServeDNS_fresh m s0 t0 cache r strs A hres hA hne]
  all_goals
    simp [ServeDNS_error m s2 t2 _ r2 stage hfail, DegradeEntrypoint_hit m t2 _ r2 [] _ hlate]

/-- C2 at a concrete input: `www.example.com A` is answered, then the store goes down. -/
theorem ServeDNS_cache_round_trip_witness :
    (ServeDNS tableMysql downWorld
        (serveAll tableMysql
          (ServeDNS tableMysql directWorld (emptyCache ResourceRecord) wwwRequest).degradeCache
          [(downWorld, wwwRequest)])
        wwwRequest).written = [{ request := wwwRequest, answers := [wwwAnswer] }] := by
  have h := ServeDNS_cache_round_trip tableMysql directWorld
    (resolve tableMysql directWorld "www.example.com" "A").2 downWorld
    (resolve tableMysql downWorld "www.example.com" "A").2 (emptyCache ResourceRecord)
    wwwRequest wwwRequest ["www 120 IN A 1.2.3.4"] [wwwAnswer] [(downWorld, wwwRequest)]
    Stage.primaryLookup rfl (by decide) (by decide)
    (by
      intro c hc _ _ strs1 A1 t1 hr
      simp only [List.mem_singleton] at hc
      subst hc
      have hd : resolve tableMysql downWorld "www.example.com" "A"
          = (.error Stage.primaryLookup, (resolve tableMysql downWorld "www.example.com" "A").2) := by
        decide
      rw [show resolve tableMysql (downWorld, wwwRequest).1 (downWorld, wwwRequest).2.qName
        (downWorld, wwwRequest).2.qType = resolve tableMysql downWorld "www.example.com" "A"
        from rfl, hd] at hr
      simp at hr)
    rfl rfl (by decide)
  exact h.2.1

/-- C10 (cache invariant). Starting from the empty cache, after any finite sequence of
ServeDNS calls every cache entry has a non-empty answer list and is the resolution of a call
of the sequence made for the name and type of the entry's key; so a cache hit never yields
an empty answer list, and a call whose resolution fails or ends with an empty answer set
leaves the cache as it was. -/
theorem serveAll_cache_invariant (m : Mysql σ RR Msg) (calls : List (σ × Request)) :
    (∀ k e, serveAll m (emptyCache RR) calls k = some e →
        e.response ≠ [] ∧ ∃ c ∈ calls, k = degradeKey c.2.qName c.2.qType ∧
          ∃ s1, resolve m c.1 c.2.qName c.2.qType = (.ok (e.rrStrings, e.response), s1))
      ∧ (∀ k answers, degradeQuery (serveAll m (emptyCache RR) calls) k = some answers →
          answers ≠ [])
      ∧ (∀ (cache : DegradeCache RR) (s : σ) (r : Request),
          (∀ strs A s1, resolve m s r.qName r.qType = (.ok (strs, A), s1) → A = []) →
          (ServeDNS m s cache r).degradeCache = cache
            ∧ (ServeDNS m s cache r).cacheWrites = []) := by
  have hJ : Justified m calls (serveAll m (emptyCache RR) calls) := by
    have h0 : Justified m [] (emptyCache RR) := by
      intro k e hk
      simp [emptyCache] at hk
    simpa using Justified_serveAll m calls [] (emptyCache RR) h0
  refine ⟨hJ, ?_, ?_⟩
  · intro k answers hq
    unfold degradeQuery at hq
    cases hk : serveAll m (emptyCache RR) calls k with
    | none => rw [hk] at hq; simp at hq
    | some e =>
      rw [hk] at hq
      simp only [Option.map_some', Option.some.injEq] at hq
      rw [← hq]
      exact (hJ k e hk).1
  · intro cache s r hres
    rcases hr : resolve m s r.qName r.qType with ⟨res, s1⟩
    cases res with
    | error stage =>
      rw [ServeDNS_error m s s1 cache r stage hr]
      exact DegradeEntrypoint_cache _ _ _ _ _
    | ok acc =>
      obtain ⟨strs, A⟩ := acc
      have hA := hres strs A s1 hr
      subst hA
      rw [ServeDNS_empty m s s1 cache r strs hr]
      exact DegradeEntrypoint_cache _ _ _ _ _

end CacheClaims

/-! ## Facts about the resolution stages -/

section StageFacts

variable {σ RR Msg : Type}

/-- The alias loop runs through the aliases from left to right: on a concatenation it runs
the first part, and the second part only when the first part did not fail. -/
theorem cnameLoop_append (m : Mysql σ RR Msg) (qName qType : String) (xs ys : List record)
    (s : σ) (acc : List String × List RR) :
    cnameLoop m qName qType (xs ++ ys) s acc =
      match cnameLoop m qName qType xs s acc with
      | (.ok acc1, s1) => cnameLoop m qName qType ys s1 acc1
      | (.error e, s1) => (.error e, s1) := by
  induction xs generalizing s acc with
  | nil => simp [cnameLoop]
  | cons x xs ih =>
    simp only [List.cons_append, cnameLoop]
    rcases hd : m.getDomainInfo s x.data with ⟨res, s1⟩
    cases res with
    | error e => simp
    | ok info =>
      obtain ⟨z, h, zn⟩ := info
      simp only
      cases hp : m.NewRR (rrLine qName x.ttl x.qType x.data) with
      | none => simp only; exact ih _ _
      | some rr =>
        simp only
        rcases hg : m.getRecords s1 z h zn qType with ⟨res2, s2⟩
        cases res2 with
        | error e => simp
        | ok recs => simp only; exact ih _ _

theorem cnameLoop_resolution_fails (m : Mysql σ RR Msg) (qName qType : String) (ai : record)
    (post : List record) (s s1 : σ) (acc : List String × List RR) (e : String)
    (h : m.getDomainInfo s ai.data = (.error e, s1)) :
    cnameLoop m qName qType (ai :: post) s acc = (.error .aliasResolution, s1) := by
  simp [cnameLoop, h]

theorem cnameLoop_target_fails (m : Mysql σ RR Msg) (qName qType : String) (ai : record)
    (post : List record) (s s1 s2 : σ) (acc : List String × List RR) (z : Int)
    (h zn : String) (rr : RR) (e : String)
    (hd : m.getDomainInfo s ai.data = (.ok (z, h, zn), s1))
    (hp : m.NewRR (rrLine qName ai.ttl ai.qType ai.data) = some rr)
    (hg : m.getRecords s1 z h zn qType = (.error e, s2)) :
    cnameLoop m qName qType (ai :: post) s acc = (.error .aliasTargetLookup, s2) := by
  simp [cnameLoop, hd, hp, hg]

/-- With an empty primary lookup the resolution is the alias loop followed by the wildcard
stage. -/
theorem resolve_of_empty_primary (m : Mysql σ RR Msg) (s s1 s2 s3 : σ) (qName qType : String)
    (zid : Int) (host zone : String) (aliases : List record)
    (h1 : m.getDomainInfo s qName = (.ok (zid, host, zone), s1))
    (h2 : m.getRecords s1 zid host zone qType = (.ok [], s2))
    (h3 : m.getRecords s2 zid host zone cnameQtype = (.ok aliases, s3)) :
    resolve m s qName qType =
      match cnameLoop m qName qType aliases s3 ([], []) with
      | (.error e, s4) => (.error e, s4)
      | (.ok acc, s4) => wildcardStage m qName qType zone s4 acc := by
  simp only [resolve, h1, h2, cnameStage, zero, List.length_nil, if_true, h3]
  rcases cnameLoop m qName qType aliases s3 ([], []) with ⟨res, s4⟩
  cases res with
  | error e => rfl
  | ok acc => simp [emitAll]

theorem wildcardStage_skip (m : Mysql σ RR Msg) (qName qType zone : String) (s : σ)
    (acc : List String × List RR) (h : acc.2 ≠ []) :
    wildcardStage m qName qType zone s acc = (.ok acc, s) := by
  have hlen : acc.2.length ≠ 0 := fun h0 => h (List.length_eq_zero.mp h0)
  simp [wildcardStage, zero, hlen]

end StageFacts

section FirstReply

variable {σ RR Msg : Type} [DecidableEq RR]

/-- A resolution with a non-empty answer set is sent: the first reply written carries it,
the result is success and the successor is not invoked. -/
theorem ServeDNS_first_reply (m : Mysql σ RR Msg) (s s1 : σ) (cache : DegradeCache RR)
    (r : Request) (strs : List String) (A : List RR)
    (h : resolve m s r.qName r.qType = (.ok (strs, A), s1)) (hA : A ≠ []) :
    (ServeDNS m s cache r).written.head? = some (m.MakeMessage r A)
      ∧ (ServeDNS m s cache r).result = (RcodeSuccess, none)
      ∧ (ServeDNS m s cache r).nextCalls = [] := by
  by_cases hc : cache (degradeKey r.qName r.qType) = some { rrStrings := strs, response := A }
  · rw [ServeDNS_equal m s s1 cache r strs A h hA hc, DegradeEntrypoint_hit m s1 cache r _ _ hc]
    simp
  · rw [ServeDNS_fresh m s s1 cache r strs A h hA hc]
    simp

end FirstReply

section AliasClaims

variable {σ RR Msg : Type} [DecidableEq RR]

/-- C8 (CNAME all-or-nothing). When the CNAME lookup returns aliases and, after the aliases
in front of it were processed, resolving the target of an alias fails or fetching its
target records fails, ServeDNS ends exactly as DegradeEntrypoint does: the cache is
unchanged and nothing is written to it, a cached answer for the key is the one reply, and
without one nothing is written and the successor is invoked. The alias loop processes the
aliases in repository order. -/
theorem ServeDNS_cname_all_or_nothing (m : Mysql σ RR Msg) (s s1 s2 s3 s4 s5 : σ)
    (cache : DegradeCache RR) (r : Request) (zid : Int) (host zone : String)
    (pre post : List record) (ai : record) (acc : List String × List RR)
    (h1 : m.getDomainInfo s r.qName = (.ok (zid, host, zone), s1))
    (h2 : m.getRecords s1 zid host zone r.qType = (.ok [], s2))
    (h3 : m.getRecords s2 zid host zone cnameQtype = (.ok (pre ++ ai :: post), s3))
    (hpre : cnameLoop m r.qName r.qType pre s3 ([], []) = (.ok acc, s4))
    (hai : (∃ e, m.getDomainInfo s4 ai.data = (.error e, s5)) ∨
      (∃ z h zn sx rr e, m.getDomainInfo s4 ai.data = (.ok (z, h, zn), sx)
        ∧ m.NewRR (rrLine r.qName ai.ttl ai.qType ai.data) = some rr
        ∧ m.getRecords sx z h zn r.qType = (.error e, s5))) :
    (ServeDNS m s cache r = DegradeEntrypoint m s5 cache r []
      ∧ (ServeDNS m s cache r).degradeCache = cache
      ∧ (ServeDNS m s cache r).cacheWrites = []
      ∧ (∀ e, cache (degradeKey r.qName r.qType) = some e →
          (ServeDNS m s cache r).written = [m.MakeMessage r e.response]
            ∧ (ServeDNS m s cache r).result = (RcodeSuccess, none)
            ∧ (ServeDNS m s cache r).nextCalls = [])
      ∧ (cache (degradeKey r.qName r.qType) = none →
          (ServeDNS m s cache r).written = []
            ∧ (ServeDNS m s cache r).result = m.Next s5 r
            ∧ (ServeDNS m s cache r).nextCalls = [r]))
    ∧ ∀ (xs ys : List record) (t : σ) (a : List String × List RR),
        cnameLoop m r.qName r.qType (xs ++ ys) t a =
          match cnameLoop m r.qName r.qType xs t a with
          | (.ok a1, t1) => cnameLoop m r.qName r.qType ys t1 a1
          | (.error e, t1) => (.error e, t1) := by
  refine ⟨?_, fun xs ys t a => cnameLoop_append m r.qName r.qType xs ys t a⟩
  have hloop : ∃ stage, cnameLoop m r.qName r.qType (pre ++ ai :: post) s3 ([], [])
      = (.error stage, s5) := by
    rw [cnameLoop_append, hpre]
    rcases hai with ⟨e, he⟩ | ⟨z, h, zn, sx, rr, e, hd, hp, hg⟩
    · exact ⟨_, cnameLoop_resolution_fails m _ _ ai post s4 s5 acc e he⟩
    · exact ⟨_, cnameLoop_target_fails m _ _ ai post s4 sx s5 acc z h zn rr e hd hp hg⟩
  obtain ⟨stage, hstage⟩ := hloop
  have hres : resolve m s r.qName r.qType = (.error stage, s5) := by
    rw [resolve_of_empty_primary m s s1 s2 s3 r.qName r.qType zid host zone _ h1 h2 h3, hstage]
  have hD := ServeDNS_error m s s5 cache r stage hres
  refine ⟨hD, ?_, ?_, ?_, ?_⟩
  · rw [hD]; exact (DegradeEntrypoint_cache _ _ _ _ _).1
  · rw [hD]; exact (DegradeEntrypoint_cache _ _ _ _ _).2
  · intro e he
    rw [hD, DegradeEntrypoint_hit m s5 cache r [] e he]
    simp
  · intro hnone
    rw [hD, DegradeEntrypoint_miss m s5 cache r [] hnone]
    simp

/-- C5 (CNAME expansion). When the primary lookup is empty, the CNAME lookup returns one
alias, the alias target resolves, the lookup of the target for the requested type returns
records r1..rk, and every line parses, the answer set has k+1 records: first the parse of
the alias line owned by the query name, then the parses of the lines of r1..rk in
repository order, each owned by the record's own name joined with its zone. -/
theorem resolve_cname_expansion (m : Mysql σ RR Msg) (s s1 s2 s3 s4 s5 : σ) (r : Request)
    (zid : Int) (host zone : String) (c : record) (zid2 : Int) (host2 zone2 : String)
    (rs : List record) (rr0 : RR)
    (h1 : m.getDomainInfo s r.qName = (.ok (zid, host, zone), s1))
    (h2 : m.getRecords s1 zid host zone r.qType = (.ok [], s2))
    (h3 : m.getRecords s2 zid host zone cnameQtype = (.ok [c], s3))
    (h4 : m.getDomainInfo s3 c.data = (.ok (zid2, host2, zone2), s4))
    (h5 : m.getRecords s4 zid2 host2 zone2 r.qType = (.ok rs, s5))
    (hp0 : m.NewRR (rrLine r.qName c.ttl c.qType c.data) = some rr0)
    (hp : ∀ x ∈ rs, (m.NewRR (cname2Line x)).isSome = true) :
    resolve m s r.qName r.qType
        = (.ok (rrLine r.qName c.ttl c.qType c.data :: rs.map cname2Line,
                rr0 :: rs.filterMap (fun x => m.NewRR (cname2Line x))), s5)
      ∧ (rr0 :: rs.filterMap (fun x => m.NewRR (cname2Line x))).length = rs.length + 1
      ∧ (rs.filterMap (fun x => m.NewRR (cname2Line x))).map some
          = rs.map (fun x =>
              m.NewRR (rrLine (x.name ++ zoneSeparator ++ x.zoneName) x.ttl x.qType x.data))
      ∧ ∀ cache : DegradeCache RR,
          (ServeDNS m s cache r).written.head?
            = some (m.MakeMessage r (rr0 :: rs.filterMap (fun x => m.NewRR (cname2Line x)))) := by
  have hmap := map_some_filterMap (fun x => m.NewRR (cname2Line x)) rs hp
  have hres : resolve m s r.qName r.qType
      = (.ok (rrLine r.qName c.ttl c.qType c.data :: rs.map cname2Line,
              rr0 :: rs.filterMap (fun x => m.NewRR (cname2Line x))), s5) := by
    rw [resolve_of_empty_primary m s s1 s2 s3 r.qName r.qType zid host zone _ h1 h2 h3]
    simp only [cnameLoop, h4, hp0, h5, emitAll_eq, List.nil_append, List.singleton_append]
    exact wildcardStage_skip m _ _ _ _ _ (by simp)
  refine ⟨hres, ?_, hmap, fun cache => ?_⟩
  · have hl := congrArg List.length hmap
    simp only [List.length_map] at hl
    simp [hl]
  · exact (ServeDNS_first_reply m s s5 cache r _ _ hres (by simp)).1

end AliasClaims

/-- C5 at the spec's input: no `A` record for `example.com`, a CNAME to `alias.net`, and
`alias.net A 1.2.3.4` give the CNAME record followed by the address record. -/
theorem resolve_cname_expansion_witness :
    (resolve tableMysql aliasWorld "example.com" "A").1
      = .ok (["example.com 300 IN CNAME alias.net", "alias.net 60 IN A 1.2.3.4"],
             [{ owner := "example.com", ttl := 300, rrType := "CNAME", rdata := "alias.net" },
              { owner := "alias.net", ttl := 60, rrType := "A", rdata := "1.2.3.4" }]) := by
  have h := (resolve_cname_expansion tableMysql aliasWorld
    (aliasWorld.after [.getDomainInfo "example.com"] 0)
    (aliasWorld.after [.getDomainInfo "example.com", .getRecords 1 "example" "com" "A"] 1)
    (aliasWorld.after [.getDomainInfo "example.com", .getRecords 1 "example" "com" "A",
      .getRecords 1 "example" "com" "CNAME"] 2)
    (aliasWorld.after [.getDomainInfo "example.com", .getRecords 1 "example" "com" "A",
      .getRecords 1 "example" "com" "CNAME", .getDomainInfo "alias.net"] 2)
    (aliasWorld.after [.getDomainInfo "example.com", .getRecords 1 "example" "com" "A",
      .getRecords 1 "example" "com" "CNAME", .getDomainInfo "alias.net",
      .getRecords 2 "alias" "net" "A"] 3)
    exampleRequest 1 "example" "com"
    { fqdn := "", qType := "CNAME", name := "example", zoneName := "com",
      ttl := 300, data := "alias.net" }
    2 "alias" "net"
    [{ fqdn := "", qType := "A", name := "alias", zoneName := "net", ttl := 60,
       data := "1.2.3.4" }]
    { owner := "example.com", ttl := 300, rrType := "CNAME", rdata := "alias.net" }
    (by decide) (by decide) (by decide) (by decide) (by decide) (by decide) (by decide)).1
  rw [show resolve tableMysql aliasWorld "example.com" "A"
    = resolve tableMysql aliasWorld exampleRequest.qName exampleRequest.qType from rfl, h]
  decide

/-- C8 at a concrete input: the first alias of `example.com` resolves, the target of the
second lies in no registered zone; the earlier cached answer is the one reply. -/
theorem ServeDNS_cname_all_or_nothing_witness :
    (ServeDNS tableMysql brokenAliasWorld exampleCache exampleRequest).written
        = [{ request := exampleRequest,
             answers := [{ owner := "example.com", ttl := 60, rrType := "A",
                           rdata := "9.9.9.9" }] }]
      ∧ (ServeDNS tableMysql brokenAliasWorld exampleCache exampleRequest).degradeCache
          = exampleCache := by
  have h := (ServeDNS_cname_all_or_nothing tableMysql brokenAliasWorld
    (brokenAliasWorld.after [.getDomainInfo "example.com"] 0)
    (brokenAliasWorld.after [.getDomainInfo "example.com",
      .getRecords 1 "example" "com" "A"] 1)
    (brokenAliasWorld.after [.getDomainInfo "example.com", .getRecords 1 "example" "com" "A",
      .getRecords 1 "example" "com" "CNAME"] 2)
    (brokenAliasWorld.after [.getDomainInfo "example.com", .getRecords 1 "example" "com" "A",
      .getRecords 1 "example" "com" "CNAME", .getDomainInfo "alias.net",
      .getRecords 2 "alias" "net" "A"] 3)
    (brokenAliasWorld.after [.getDomainInfo "example.com", .getRecords 1 "example" "com" "A",
      .getRecords 1 "example" "com" "CNAME", .getDomainInfo "alias.net",
      .getRecords 2 "alias" "net" "A", .getDomainInfo "alias.org"] 3)
    exampleCache exampleRequest 1 "example" "com"
    [{ fqdn := "", qType := "CNAME", name := "example", zoneName := "com",
       ttl := 300, data := "alias.net" }]
    []
    { fqdn := "", qType := "CNAME", name := "example", zoneName := "com",
      ttl := 300, data := "alias.org" }
    (["example.com 300 IN CNAME alias.net", "alias.net 60 IN A 1.2.3.4"],
     [{ owner := "example.com", ttl := 300, rrType := "CNAME", rdata := "alias.net" },
      { owner := "alias.net", ttl := 60, rrType := "A", rdata := "1.2.3.4" }])
    (by decide) (by decide) (by decide) (by decide)
    (Or.inl ⟨"domain alias.org not exist", by decide⟩)).1
  exact ⟨(h.2.2.2.1
    { rrStrings := ["example.com 60 IN A 9.9.9.9"],
      response := [{ owner := "example.com", ttl := 60, rrType := "A", rdata := "9.9.9.9" }] }
    (by decide)).1, h.2.1⟩

/-! ## Direct match and wildcard fallback -/

theorem dropWhile_not_sep (xs ys : List Char) (h : '.' ∉ xs) :
    (xs ++ '.' :: ys).dropWhile (fun c => c != '.') = '.' :: ys := by
  induction xs with
  | nil => simp [List.dropWhile]
  | cons x xs ih =>
    have hx : x ≠ '.' := fun hx => h (hx ▸ List.mem_cons_self x xs)
    have hxs : '.' ∉ xs := fun hm => h (List.mem_cons_of_mem x hm)
    have hb : (x != '.') = true := by simp [hx]
    simp only [List.cons_append, List.dropWhile, hb]
    exact ih hxs

/-- Discarding the leftmost label of `host.zone` gives `zone` when `host` is one label. -/
theorem baseZoneOf_one_label (host zone : String) (h : '.' ∉ host.data) :
    baseZoneOf (host ++ zoneSeparator ++ zone) = zone := by
  have hd : (host ++ zoneSeparator ++ zone).data = host.data ++ '.' :: zone.data := by
    simp [zoneSeparator, String.data_append]
  unfold baseZoneOf
  rw [hd, dropWhile_not_sep host.data zone.data h]
  rfl

/-- Every jump to `DegradeEntrypoint` is taken by some run over the table-backed
repository. -/
theorem every_stage_reachable (stage : Stage) :
    ∃ (w : World) (r : Request), (resolve tableMysql w r.qName r.qType).1 = .error stage := by
  cases stage
  · exact ⟨directWorld, { qName := "www.example.org", qType := "A", msgId := 0 }, by decide⟩
  · exact ⟨downWorld, wwwRequest, by decide⟩
  · exact ⟨{ aliasWorld with answersLeft := 1 }, exampleRequest, by decide⟩
  · exact ⟨brokenAliasWorld, exampleRequest, by decide⟩
  · exact ⟨{ aliasWorld with answersLeft := 2 }, exampleRequest, by decide⟩
  · exact ⟨wildcardWorld, deepRequest, by decide⟩
  · exact ⟨{ wildcardWorld with answersLeft := 2 }, shallowRequest, by decide⟩

section MatchClaims

variable {σ RR Msg : Type} [DecidableEq RR]

/-- C7 as stated fails: the primary lookup for `www.example.com A` returns two records, the
line of the first does not parse, and the reply carries one answer. -/
theorem direct_match_counterexample :
    (tableMysql.getRecords (mixedWorld.after [.getDomainInfo "www.example.com"] 0)
        1 "www" "example.com" "A").1
      = .ok [{ fqdn := "", qType := "A", name := "www",
               zoneName := "example.com", ttl := 120, data := "not-an-ip" },
             { fqdn := "", qType := "A", name := "www",
               zoneName := "example.com", ttl := 120, data := "1.2.3.4" }]
      ∧ (ServeDNS tableMysql mixedWorld (emptyCache ResourceRecord) wwwRequest).written
          = [{ request := wwwRequest, answers := [wwwAnswer] }] := by
  decide

/-- C7 (direct match, amended). When the zone decomposition succeeds, the primary lookup
returns a non-empty list R and every line built from R parses, the answer set has len(R)
records, the i-th being the parse of the line of owner name, TTL, type and data of the i-th
record of R; no repository call follows the primary lookup, and the first reply written
carries this answer set. -/
theorem resolve_direct_match (m : Mysql σ RR Msg) (s s1 s2 : σ) (r : Request) (zid : Int)
    (host zone : String) (R : List record)
    (h1 : m.getDomainInfo s r.qName = (.ok (zid, host, zone), s1))
    (h2 : m.getRecords s1 zid host zone r.qType = (.ok R, s2))
    (hR : R ≠ [])
    (hp : ∀ x ∈ R, (m.NewRR (recordLine x)).isSome = true) :
    resolve m s r.qName r.qType
        = (.ok (R.map recordLine, R.filterMap (fun x => m.NewRR (recordLine x))), s2)
      ∧ (R.filterMap (fun x => m.NewRR (recordLine x))).length = R.length
      ∧ (R.filterMap (fun x => m.NewRR (recordLine x))).map some
          = R.map (fun x => m.NewRR (rrLine x.name x.ttl x.qType x.data))
      ∧ ∀ cache : DegradeCache RR,
          (ServeDNS m s cache r).written.head?
              = some (m.MakeMessage r (R.filterMap (fun x => m.NewRR (recordLine x))))
            ∧ (ServeDNS m s cache r).world = s2 := by
  have hmap := map_some_filterMap (fun x => m.NewRR (recordLine x)) R hp
  have hlen : (R.filterMap (fun x => m.NewRR (recordLine x))).length = R.length := by
    have hl := congrArg List.length hmap
    simpa only [List.length_map] using hl
  have hne : R.filterMap (fun x => m.NewRR (recordLine x)) ≠ [] := by
    intro h0
    rw [h0] at hlen
    exact hR (List.length_eq_zero.mp hlen.symm)
  have hRlen : R.length ≠ 0 := fun h0 => hR (List.length_eq_zero.mp h0)
  have hres : resolve m s r.qName r.qType
      = (.ok (R.map recordLine, R.filterMap (fun x => m.NewRR (recordLine x))), s2) := by
    simp only [resolve, h1, h2, cnameStage, zero, hRlen, if_false, emitAll_eq,
      List.nil_append]
    exact wildcardStage_skip m _ _ _ _ _ hne
  refine ⟨hres, hlen, hmap, fun cache => ⟨?_, ?_⟩⟩
  · exact (ServeDNS_first_reply m s s2 cache r _ _ hres hne).1
  · by_cases hc : cache (degradeKey r.qName r.qType)
        = some { rrStrings := R.map recordLine,
                 response := R.filterMap (fun x => m.NewRR (recordLine x)) }
    · rw [ServeDNS_equal m s s2 cache r _ _ hres hne hc,
        DegradeEntrypoint_hit m s2 cache r _ _ hc]
    · rw [ServeDNS_fresh m s s2 cache r _ _ hres hne hc]

/-- C7 (amended) at a concrete input: `www.example.com A` with one matching record. -/
theorem resolve_direct_match_witness :
    (ServeDNS tableMysql directWorld (emptyCache ResourceRecord) wwwRequest).written.head?
        = some { request := wwwRequest, answers := [wwwAnswer] }
      ∧ (ServeDNS tableMysql directWorld (emptyCache ResourceRecord) wwwRequest).world.trace
        = [.getDomainInfo "www.example.com", .getRecords 1 "www" "example.com" "A"] := by
  have h := (resolve_direct_match tableMysql directWorld
    (directWorld.after [.getDomainInfo "www.example.com"] 0)
    (directWorld.after [.getDomainInfo "www.example.com",
      .getRecords 1 "www" "example.com" "A"] 1)
    wwwRequest 1 "www" "example.com"
    [{ fqdn := "", qType := "A", name := "www", zoneName := "example.com",
       ttl := 120, data := "1.2.3.4" }]
    (by decide) (by decide) (by decide) (by decide)).2.2.2 (emptyCache ResourceRecord)
  refine ⟨h.1.trans (by decide), ?_⟩
  rw [h.2]
  decide

/-- C6 as stated fails: for `a.b.example.com` with zone `example.com`, no record for the
name, `b.example.com` not registered and a wildcard record under `(*, example.com)`, the
base zone `b.example.com` has no id, the resolution jumps to DegradeEntrypoint, and with an
empty cache ServeDNS writes no reply and invokes the successor. -/
theorem wildcard_fallback_counterexample :
    resolveName wildcardWorld.zones "a.b.example.com" = .ok (1, "a.b", "example.com")
      ∧ fetchRecords wildcardWorld 1 "a.b" "example.com" "A" = .ok []
      ∧ fetchRecords wildcardWorld 1 "a.b" "example.com" "CNAME" = .ok []
      ∧ baseZoneOf "a.b.example.com" = "b.example.com"
      ∧ lookupZoneID wildcardWorld.zones "b.example.com" = none
      ∧ fetchRecords wildcardWorld 1 "*" "example.com" "A"
          = .ok [{ fqdn := "", qType := "A", name := "*",
                   zoneName := "example.com", ttl := 120, data := "1.2.3.4" }]
      ∧ (resolve tableMysql wildcardWorld "a.b.example.com" "A").1
          = .error Stage.wildcardZoneLookup
      ∧ (ServeDNS tableMysql wildcardWorld (emptyCache ResourceRecord) deepRequest).written = []
      ∧ (ServeDNS tableMysql wildcardWorld (emptyCache ResourceRecord) deepRequest).nextCalls
          = [deepRequest] := by
  decide

/-- C6 (wildcard fallback, amended). For a query name made of one label in front of its
registered zone, with more than one separator in the name, when the primary lookup and the
CNAME lookup are empty, the zone has an id, and the lookup of host `*` in the zone for the
requested type returns a non-empty list whose lines parse, ServeDNS answers with those
records, each with the owner name `*` + separator + zone; `getBaseZone` is the spec's
`baseZoneOf`. -/
theorem resolve_wildcard_one_label (m : Mysql σ RR Msg) (s s1 s2 s3 s4 s5 : σ) (r : Request)
    (zid domainID : Int) (host zone : String) (ws : List record)
    (hb : m.getBaseZone = baseZoneOf)
    (hq : r.qName = host ++ zoneSeparator ++ zone) (hhost : '.' ∉ host.data)
    (hsep : 1 < countSeparator r.qName)
    (h1 : m.getDomainInfo s r.qName = (.ok (zid, host, zone), s1))
    (h2 : m.getRecords s1 zid host zone r.qType = (.ok [], s2))
    (h3 : m.getRecords s2 zid host zone cnameQtype = (.ok [], s3))
    (h4 : m.getZoneID s3 zone = (some domainID, s4))
    (h5 : m.getRecords s4 domainID wildcard zone r.qType = (.ok ws, s5))
    (hws : ws ≠ [])
    (hp : ∀ x ∈ ws,
      (m.NewRR (wildcardLine (wildcard ++ zoneSeparator ++ zone) x)).isSome = true) :
    resolve m s r.qName r.qType
        = (.ok (ws.map (wildcardLine (wildcard ++ zoneSeparator ++ zone)),
                ws.filterMap
                  (fun x => m.NewRR (wildcardLine (wildcard ++ zoneSeparator ++ zone) x))), s5)
      ∧ (ws.filterMap
            (fun x => m.NewRR (wildcardLine (wildcard ++ zoneSeparator ++ zone) x))).map some
          = ws.map (fun x =>
              m.NewRR (rrLine (wildcard ++ zoneSeparator ++ zone) x.ttl x.qType x.data))
      ∧ ∀ cache : DegradeCache RR,
          (ServeDNS m s cache r).written.head?
              = some (m.MakeMessage r (ws.filterMap
                  (fun x => m.NewRR (wildcardLine (wildcard ++ zoneSeparator ++ zone) x))))
            ∧ (ServeDNS m s cache r).result = (RcodeSuccess, none)
            ∧ (ServeDNS m s cache r).nextCalls = [] := by
  have hmap := map_some_filterMap
    (fun x => m.NewRR (wildcardLine (wildcard ++ zoneSeparator ++ zone) x)) ws hp
  have hne : ws.filterMap
      (fun x => m.NewRR (wildcardLine (wildcard ++ zoneSeparator ++ zone) x)) ≠ [] := by
    intro h0
    have hl := congrArg List.length hmap
    rw [h0] at hl
    simp only [List.map_nil, List.length_nil, List.length_map] at hl
    exact hws (List.length_eq_zero.mp hl.symm)
  have hbase : m.getBaseZone r.qName = zone := by
    rw [hb, hq]
    exact baseZoneOf_one_label host zone hhost
  have hres : resolve m s r.qName r.qType
      = (.ok (ws.map (wildcardLine (wildcard ++ zoneSeparator ++ zone)),
              ws.filterMap
                (fun x => m.NewRR (wildcardLine (wildcard ++ zoneSeparator ++ zone) x))), s5) := by
    rw [resolve_of_empty_primary m s s1 s2 s3 r.qName r.qType zid host zone _ h1 h2 h3]
    simp only [cnameLoop, wildcardStage, zero, List.length_nil, hsep, gt_iff_lt, and_self,
      if_true, hbase, h4, h5, emitAll_eq, List.nil_append]
  exact ⟨hres, hmap, fun cache => ServeDNS_first_reply m s s5 cache r _ _ hres hne⟩

/-- C6 (amended) at a concrete input: `a.example.com A` with a wildcard record under
`(*, example.com)` is answered with the owner name `*.example.com`. -/
theorem resolve_wildcard_one_label_witness :
    (ServeDNS tableMysql wildcardWorld (emptyCache ResourceRecord) shallowRequest).written.head?
      = some { request := shallowRequest, answers := [wildcardAnswer] } := by
  have h := (resolve_wildcard_one_label tableMysql wildcardWorld
    (wildcardWorld.after [.getDomainInfo "a.example.com"] 0)
    (wildcardWorld.after [.getDomainInfo "a.example.com",
      .getRecords 1 "a" "example.com" "A"] 1)
    (wildcardWorld.after [.getDomainInfo "a.example.com",
      .getRecords 1 "a" "example.com" "A", .getRecords 1 "a" "example.com" "CNAME"] 2)
    (wildcardWorld.after [.getDomainInfo "a.example.com",
      .getRecords 1 "a" "example.com" "A", .getRecords 1 "a" "example.com" "CNAME",
      .getZoneID "example.com"] 2)
    (wildcardWorld.after [.getDomainInfo "a.example.com",
      .getRecords 1 "a" "example.com" "A", .getRecords 1 "a" "example.com" "CNAME",
      .getZoneID "example.com", .getRecords 1 "*" "example.com" "A"] 3)
    shallowRequest 1 1 "a" "example.com"
    [{ fqdn := "", qType := "A", name := "*", zoneName := "example.com",
       ttl := 120, data := "1.2.3.4" }]
    rfl (by decide) (by decide) (by decide) (by decide) (by decide) (by decide) (by decide)
    (by decide) (by decide) (by decide)).2.2 (emptyCache ResourceRecord)
  exact h.1.trans (by decide)

/-- C9 (code defect). For `x.example.com A`, where `x.example.com` and its base zone
`example.com` are both registered, the wildcard fetch is made with the id of the base zone
but with the zone name `x.example.com` of the decomposed query name, not with the base
zone's name; the returned record is emitted with the owner name `*.example.com`. -/
theorem wildcard_fetch_passes_decomposed_zone :
    resolveName nestedWorld.zones "x.example.com" = .ok (2, "", "x.example.com")
      ∧ baseZoneOf "x.example.com" = "example.com"
      ∧ lookupZoneID nestedWorld.zones "example.com" = some 1
      ∧ (ServeDNS tableMysql nestedWorld (emptyCache ResourceRecord) nestedRequest).world.trace
          = [.getDomainInfo "x.example.com", .getRecords 2 "" "x.example.com" "A",
             .getRecords 2 "" "x.example.com" "CNAME", .getZoneID "example.com",
             .getRecords 1 "*" "x.example.com" "A"]
      ∧ Call.getRecords 1 "*" "example.com" "A" ∉
          (ServeDNS tableMysql nestedWorld (emptyCache ResourceRecord) nestedRequest).world.trace
      ∧ (ServeDNS tableMysql nestedWorld (emptyCache ResourceRecord) nestedRequest).written
          = [{ request := nestedRequest, answers := [wildcardAnswer] }] := by
  decide

end MatchClaims

end CorednsMysql
